import Mathlib

/-!
# Session evaluation and metrics of the sales-training server

A shallow embedding of the scoring code of `src/server.js`:
`calculateFinalScore`, `safeParseJson`, `normalizeScores`, the evaluation step of
`POST /api/sessions/:id/complete` and the computation of `GET /api/metrics`, and of
the two handlers that write to the session store, `POST /api/sessions/:id/message`
and `POST /api/sessions/:id/complete`, as functions on the state of the store.

JavaScript values are embedded as the values `JSON.parse` can build, plus
`undefined`. A finite JavaScript number is embedded as the exact rational it
denotes, so arithmetic is exact: the rounding of binary floating point is not
part of the model. `NaN` and the two infinities are kept as separate values. Zero
carries no sign.
-/

namespace SalesTrainer

/-! ## JavaScript values -/

/-- A JavaScript number: a finite value, `NaN`, `Infinity` or `-Infinity`. -/
inductive JSNum where
  | fin (q : ℚ)
  | nan
  | posInf
  | negInf
  deriving DecidableEq

/-- The exceptions the embedded code can raise. -/
inductive JSError where
  | typeError
  deriving DecidableEq, Repr

/-- A JavaScript value as `JSON.parse` builds it, or `undefined`. An object is the
list of its own properties in insertion order, with distinct keys. An array
carries its elements and the named own properties assigned to it afterwards
(`JSON.parse` builds arrays with none). -/
inductive JSVal where
  | undefined
  | null
  | bool (b : Bool)
  | num (n : JSNum)
  | str (s : String)
  | arr (items : List JSVal) (props : List (String × JSVal))
  | obj (props : List (String × JSVal))

/-- The result of the `typeof` operator. -/
inductive JSType where
  | undefined
  | object
  | boolean
  | number
  | string
  deriving DecidableEq, Repr

/-- The built-in conversions of the JavaScript runtime that the embedded code
reaches but that are not part of the repository: `StringToNumber` (used by
`Number(...)` on a string), `Array.prototype.toString` (used by `Number(...)` on an
array, it may raise) and `JSON.parse` (`none` stands for a `SyntaxError`). -/
structure Runtime where
  stringToNumber : String → JSNum
  arrayToString : List JSVal → Except JSError String
  jsonParse : String → Option JSVal

/-- A runtime for closed statements at inputs without strings and arrays among the
reported scores, where no number conversion is consulted, and at response bodies
that are not JSON: it reads every text as `NaN`, every array as the empty text
and rejects every JSON text. -/
def Runtime.silent : Runtime :=
  ⟨fun _ => JSNum.nan, fun _ => Except.ok "", fun _ => none⟩

/-- A runtime whose `JSON.parse` reads the one text `text` as `value` and rejects
every other text; for closed statements on a given response body. -/
def Runtime.reading (text : String) (value : JSVal) : Runtime :=
  ⟨fun _ => JSNum.nan, fun _ => Except.ok "", fun t => if t = text then some value else none⟩

/-- JavaScript `typeof v`. -/
def typeOf : JSVal → JSType
  | .undefined => .undefined
  | .null => .object
  | .bool _ => .boolean
  | .num _ => .number
  | .str _ => .string
  | .arr _ _ => .object
  | .obj _ => .object

/-- JavaScript `ToBoolean`: the value is truthy. -/
def truthy : JSVal → Bool
  | .undefined => false
  | .null => false
  | .bool b => b
  | .num (.fin q) => decide (q ≠ 0)
  | .num .nan => false
  | .num _ => true
  | .str s => decide (s ≠ "")
  | .arr _ _ => true
  | .obj _ => true

/-- Own property lookup in a property list. -/
def lookupProp (props : List (String × JSVal)) (key : String) : Option JSVal :=
  (props.find? (fun p => p.1 == key)).map Prod.snd

/-- The property read `v[key]`, for the property names this program reads
(`scores`, `suggestions` and the seven categories): none of them is an array index
or a name defined on a built-in prototype, so a value without such an own property
reads `undefined`. Reading a property of `null` or `undefined` raises. -/
def getProp (v : JSVal) (key : String) : Except JSError JSVal :=
  match v with
  | .undefined => .error .typeError
  | .null => .error .typeError
  | .obj props => .ok ((lookupProp props key).getD .undefined)
  | .arr _ props => .ok ((lookupProp props key).getD .undefined)
  | _ => .ok .undefined

/-- Replace the value under `key`, or add the property at the end. -/
def assignProp (props : List (String × JSVal)) (key : String) (value : JSVal) :
    List (String × JSVal) :=
  match props with
  | [] => [(key, value)]
  | p :: rest => if p.1 == key then (key, value) :: rest else p :: assignProp rest key value

/-- The assignment `v[key] = value` in non-strict code (the server file has no
`'use strict'`): it is silently dropped on a primitive and raises on `null` and
`undefined`. -/
def setProp (v : JSVal) (key : String) (value : JSVal) : Except JSError JSVal :=
  match v with
  | .undefined => .error .typeError
  | .null => .error .typeError
  | .obj props => .ok (.obj (assignProp props key value))
  | .arr items props => .ok (.arr items (assignProp props key value))
  | other => .ok other

/-- JavaScript `Number(v)` (`ToNumber`). A plain object is converted through
`valueOf` and `toString`: the inherited `valueOf` returns the object itself and the
inherited `toString` gives `"[object Object]"`, which reads as `NaN`; an own
property `toString` parsed from JSON is not callable and shadows the inherited
one, and then the conversion raises a `TypeError`. An array is converted through
`Array.prototype.toString` and the reading of the text it gives. -/
def toNumber (rt : Runtime) : JSVal → Except JSError JSNum
  | .undefined => .ok .nan
  | .null => .ok (.fin 0)
  | .bool true => .ok (.fin 1)
  | .bool false => .ok (.fin 0)
  | .num n => .ok n
  | .str s => .ok (rt.stringToNumber s)
  | .arr items _ =>
    match rt.arrayToString items with
    | .ok s => .ok (rt.stringToNumber s)
    | .error e => .error e
  | .obj props =>
    if (lookupProp props "toString").isSome then .error .typeError else .ok .nan

/-- JavaScript `Object.values(v)`: the own enumerable property values. -/
def objectValues : JSVal → Except JSError (List JSVal)
  | .undefined => .error .typeError
  | .null => .error .typeError
  | .obj props => .ok (props.map Prod.snd)
  | .arr items props => .ok (items ++ props.map Prod.snd)
  | .str s => .ok (s.toList.map fun c => .str (String.singleton c))
  | _ => .ok []

/-! ## Number arithmetic -/

/-- JavaScript `Math.round` on a finite value: the nearest integer, a tie going
up. -/
def mathRound (x : ℚ) : ℚ := (⌊x + 1 / 2⌋ : ℤ)

/-- JavaScript `a + b` on numbers. -/
def JSNum.add : JSNum → JSNum → JSNum
  | .fin a, .fin b => .fin (a + b)
  | .nan, _ => .nan
  | _, .nan => .nan
  | .posInf, .negInf => .nan
  | .negInf, .posInf => .nan
  | .posInf, _ => .posInf
  | _, .posInf => .posInf
  | .negInf, _ => .negInf
  | _, .negInf => .negInf

/-- JavaScript `a * c` for a positive finite constant `c`. -/
def JSNum.scale (a : JSNum) (c : ℚ) : JSNum :=
  match a with
  | .fin q => .fin (q * c)
  | other => other

/-- JavaScript `a / c` for a positive finite constant `c`. -/
def JSNum.divide (a : JSNum) (c : ℚ) : JSNum :=
  match a with
  | .fin q => .fin (q / c)
  | other => other

/-- JavaScript `Math.round(a)`. -/
def JSNum.round : JSNum → JSNum
  | .fin q => .fin (mathRound q)
  | other => other

/-- The number under a value whose `typeof` is `'number'`. -/
def asNumber : JSVal → Option JSNum
  | .num n => some n
  | _ => none

/-! ## The scoring functions of `src/server.js` -/

/-- The function `calculateFinalScore` of `src/server.js`. -/
def calculateFinalScore (scores : JSVal) : Except JSError JSVal :=
  match objectValues scores with
  | .error e => .error e
  | .ok all =>
    let values := all.filterMap asNumber
    if values.length = 0 then .ok .null
    else
      let avg := (values.foldl JSNum.add (.fin 0)).divide values.length
      .ok (.num ((avg.scale 10).round.divide 10))

/-- The function `safeParseJson` of `src/server.js`; `content` is the message
content of the evaluation response, `none` for a `null` content. -/
def safeParseJson (rt : Runtime) (content : Option String) : JSVal :=
  match content with
  | none => .null
  | some text =>
    if text = "" then .null
    else
      match rt.jsonParse text with
      | some v => v
      | none => .null

/-- The seven fixed categories, in the order of the `defaults` literal. -/
def categories : List String :=
  ["greeting", "needs_discovery", "product_matching", "objection_handling", "closing",
    "communication_clarity", "professionalism"]

/-- The entries of the `defaults` literal of `normalizeScores`. -/
def defaultEntries : List (String × JSVal) :=
  [("greeting", .num (.fin 3)), ("needs_discovery", .num (.fin 3)),
    ("product_matching", .num (.fin 3)), ("objection_handling", .num (.fin 3)),
    ("closing", .num (.fin 3)), ("communication_clarity", .num (.fin 3)),
    ("professionalism", .num (.fin 3))]

/-- The callback that `normalizeScores` maps over the entries of `defaults`. -/
def normalizeEntry (rt : Runtime) (scores : JSVal) (entry : String × JSVal) :
    Except JSError (String × JSVal) :=
  match getProp scores entry.1 with
  | .error e => .error e
  | .ok reported =>
    match toNumber rt reported with
    | .error e => .error e
    | .ok (.fin score) => .ok (entry.1, .num (.fin (min 5 (max 1 score))))
    | .ok _ => .ok (entry.1, entry.2)

/-- The function `normalizeScores` of `src/server.js`. -/
def normalizeScores (rt : Runtime) (scores : JSVal) : Except JSError JSVal :=
  if !truthy scores || typeOf scores != JSType.object then .ok (.obj defaultEntries)
  else
    match defaultEntries.mapM (normalizeEntry rt scores) with
    | .error e => .error e
    | .ok entries => .ok (.obj entries)

/-! ## The evaluation step of `POST /api/sessions/:id/complete` -/

/-- The four fixed texts of the fallback evaluation literal. -/
def fallbackTexts : List (String × JSVal) :=
  [("summary", .str "Evaluation could not be parsed. Please retry the session completion."),
    ("suggestions",
      .str "Ask the customer to clarify goals, confirm constraints, and summarize next steps."),
    ("strengths", .str "Stayed engaged with the customer."),
    ("risks", .str "Missed structured evaluation due to parsing errors.")]

/-- The fallback evaluation literal of the completion handler: empty scores and
the four fixed texts. -/
def fallbackEvaluation : JSVal := .obj (("scores", .obj []) :: fallbackTexts)

/-- What the evaluation step hands to the update of the store and to the response:
the local variables `finalScore` and `evaluation`. -/
structure Completion where
  finalScore : JSVal
  evaluation : JSVal

/-- The statements of the completion handler from `safeParseJson(...)` to
`calculateFinalScore(...)`, run on the message content of the evaluation response.
An exception is caught by the handler and answered with status 500. -/
def evaluateResponse (rt : Runtime) (content : Option String) : Except JSError Completion :=
  let parsed := safeParseJson rt content
  let evaluation := if truthy parsed then parsed else fallbackEvaluation
  match getProp evaluation "scores" with
  | .error e => .error e
  | .ok reported =>
    match normalizeScores rt reported with
    | .error e => .error e
    | .ok normalized =>
      match setProp evaluation "scores" normalized with
      | .error e => .error e
      | .ok evaluation =>
        match getProp evaluation "scores" with
        | .error e => .error e
        | .ok stored =>
          match calculateFinalScore stored with
          | .error e => .error e
          | .ok finalScore => .ok ⟨finalScore, evaluation⟩

/-! ## The computation of `GET /api/metrics` -/

/-- The body of the metrics response. `none` stands for `null`. -/
structure Metrics where
  overall : Option ℚ
  recentImprovement : Option ℚ
  totalSessions : ℕ
  deriving DecidableEq

/-- The expression `xs.reduce((sum, row) => sum + row.score, 0)`. -/
def sumScores (rows : List ℚ) : ℚ := rows.foldl (fun sum score => sum + score) 0

/-- The expression `xs.length ? sum(xs) / xs.length : null` that gives `avgRecent`
and `avgPrevious`. -/
def groupAverage (group : List ℚ) : Option ℚ :=
  if group.length ≠ 0 then some (sumScores group / group.length) else none

/-- The group `rows.slice(0, 5)`. -/
def recentRows (rows : List ℚ) : List ℚ := rows.take 5

/-- The group `rows.slice(5, 10)`. -/
def previousRows (rows : List ℚ) : List ℚ := (rows.drop 5).take 5

/-- The local `avgRecent` of the metrics handler. -/
def avgRecent (rows : List ℚ) : Option ℚ := groupAverage (recentRows rows)

/-- The local `avgPrevious` of the metrics handler. -/
def avgPrevious (rows : List ℚ) : Option ℚ := groupAverage (previousRows rows)

/-- Truthiness of a value that is a number or `null`. In arithmetic `null` counts
as 0, which the guard of `improvementOf` never lets happen. -/
def truthyAverage : Option ℚ → Bool
  | some q => decide (q ≠ 0)
  | none => false

/-- The expression
`avgRecent && avgPrevious ? Math.round((avgRecent - avgPrevious) * 10) / 10 : null`. -/
def improvementOf (recent previous : Option ℚ) : Option ℚ :=
  if truthyAverage recent && truthyAverage previous then
    some (mathRound ((recent.getD 0 - previous.getD 0) * 10) / 10)
  else none

/-- The handler of `GET /api/metrics` on the rows of the query, which are the
scores of the sessions with a non-null score, latest completion first. The scores
are finite numbers. -/
def metrics (rows : List ℚ) : Metrics :=
  if rows.length = 0 then ⟨none, none, 0⟩
  else
    let totalSessions := rows.length
    let overall := mathRound (sumScores rows / totalSessions * 10) / 10
    ⟨some overall, improvementOf (avgRecent rows) (avgPrevious rows), totalSessions⟩

/-! ## The session store and the handlers that write to it -/

/-- A row of the table `sessions`. `none` stands for SQL `NULL`. The column
`analysis` holds the JSON text of a value and `suggestions` the value handed to the
statement; both are kept here as the value. -/
structure Session where
  id : String
  mode : String
  scenario : String
  ideal_resolution : String
  scenario_context : String
  status : String
  score : Option JSNum
  analysis : Option JSVal
  suggestions : Option JSVal
  created_at : String
  completed_at : Option String
  language : String

/-- A row of the table `messages`, without its auto-incremented `id`: the store
keeps the rows in the order of their ids. -/
structure Message where
  session_id : String
  role : String
  content : String
  created_at : String
  deriving DecidableEq

/-- The database: the rows of `sessions` (the primary key `id` is unique) and the
rows of `messages` in increasing `id`. -/
structure Store where
  sessions : List Session
  messages : List Message

/-- What a handler reaches outside the repository: whether the API key is
configured (`openai` is not `null`); the chat completion of a conversation turn,
run on the persona prompt built from the session and on the message history,
giving the trimmed reply or failing; the speech synthesis of a reply, which may
fail; the chat completion of the evaluation, run on the prompt built from the
session and the transcript, giving the message content (`none` for `null`) or
failing; and whether the database driver accepts a value as a statement
parameter. -/
structure Services where
  configured : Bool
  dialogue : Session → List Message → Option String
  speech : String → Bool
  evaluator : Session → List Message → Option (Option String)
  binds : JSVal → Bool

/-- The answer of a handler: an error with its status and text, the reply of a
turn with the address of its audio, or the result of a completion. -/
inductive Response where
  | failure (status : ℕ) (error : String)
  | reply (text : String) (audioUrl : String)
  | completed (finalScore : JSVal) (evaluation : JSVal)

/-- The function `getSession` of `src/server.js`. -/
def getSession (store : Store) (sessionId : String) : Option Session :=
  store.sessions.find? fun session => session.id == sessionId

/-- The function `getMessages` of `src/server.js`: the messages of the session in
increasing `id`. -/
def getMessages (store : Store) (sessionId : String) : List Message :=
  store.messages.filter fun message => message.session_id == sessionId

/-- The statement `INSERT INTO messages (session_id, role, content, created_at)`. -/
def insertMessage (store : Store) (message : Message) : Store :=
  { store with messages := store.messages ++ [message] }

/-- The handler of `POST /api/sessions/:id/message` on the request text `text`; `now`
and `replyAt` are the two readings of the clock and `stamp` the reading that names
the audio file. The handler is run without another request in between. -/
def postMessage (sv : Services) (store : Store) (sessionId text now replyAt stamp : String) :
    Store × Response :=
  if !sv.configured then
    (store, .failure 500 "OPENAI_API_KEY is not configured on the server.")
  else if text = "" then (store, .failure 400 "text is required")
  else
    match getSession store sessionId with
    | none => (store, .failure 404 "Session not found")
    | some session =>
      let store := insertMessage store ⟨sessionId, "user", text, now⟩
      match sv.dialogue session (getMessages store sessionId) with
      | none => (store, .failure 500 "Failed to generate reply")
      | some reply =>
        let store := insertMessage store ⟨sessionId, "assistant", reply, replyAt⟩
        if sv.speech reply then
          (store, .reply reply ("/audio/" ++ sessionId ++ "-" ++ stamp ++ ".mp3"))
        else (store, .failure 500 "Failed to generate reply")

/-- Services that are configured and always answer: the dialogue replies `Sure.`,
the speech is synthesised, the evaluation answers the text `not json`, and the
driver accepts texts, numbers and `null`. -/
def Services.sample : Services where
  configured := true
  dialogue := fun _ _ => some "Sure."
  speech := fun _ => true
  evaluator := fun _ _ => some (some "not json")
  binds := fun v =>
    match v with
    | .str _ => true
    | .num _ => true
    | .null => true
    | _ => false

/-- A session that was completed at `t1` with score 5. -/
def completedSession : Session where
  id := "s1"
  mode := "simple"
  scenario := "A customer asks for a home battery."
  ideal_resolution := "Offer a matching battery."
  scenario_context := "Buy a battery."
  status := "completed"
  score := some (.fin 5)
  analysis := some (.obj [("summary", .str "Well done."), ("finalScore", .num (.fin 5))])
  suggestions := some (.str "Keep going.")
  created_at := "t0"
  completed_at := some "t1"
  language := "English"

/-- A store with the one completed session and its one message. -/
def completedStore : Store :=
  ⟨[completedSession], [⟨"s1", "user", "Hi", "t0"⟩]⟩

/-- The score the specification stores for a reported number: a finite number
clamped to the range from 1 to 5, the default 3 for `NaN` and the infinities. -/
def storedScore : JSNum → ℚ
  | .fin x => min 5 (max 1 x)
  | _ => 3

/-- The reported scores pass the guard of `normalizeScores`: a truthy value whose
`typeof` is `'object'` (an object or an array). -/
def isObject (scores : JSVal) : Bool := truthy scores && typeOf scores == JSType.object

/-- Every category value of the reported scores can be converted by `Number`:
no conversion raises. It holds for every value that fails the guard. -/
def converts (rt : Runtime) (scores : JSVal) : Bool :=
  !isObject scores || categories.all fun key =>
    match getProp scores key with
    | .error _ => false
    | .ok reported =>
      match toNumber rt reported with
      | .error _ => false
      | .ok _ => true

/-- The value `q` is what the specification stores for category `key` of the
reported scores: the default when they fail the guard, and otherwise the stored
score of `Number(scores[key])`. -/
def NormalizedAs (rt : Runtime) (scores : JSVal) (key : String) (q : ℚ) : Prop :=
  (isObject scores = false ∧ q = 3) ∨
    (isObject scores = true ∧
      ∃ reported n, getProp scores key = .ok reported ∧ toNumber rt reported = .ok n ∧
        q = storedScore n)

/-- The object with the seven categories in order and the given scores. -/
def scoreObject (q1 q2 q3 q4 q5 q6 q7 : ℚ) : JSVal :=
  .obj [("greeting", .num (.fin q1)), ("needs_discovery", .num (.fin q2)),
    ("product_matching", .num (.fin q3)), ("objection_handling", .num (.fin q4)),
    ("closing", .num (.fin q5)), ("communication_clarity", .num (.fin q6)),
    ("professionalism", .num (.fin q7))]

/-- The reported scores of scenario E3, with one category the rubric does not
have and four categories missing. -/
def reportedE3 : JSVal :=
  .obj [("greeting", .num (.fin 7)), ("closing", .num (.fin (-2))),
    ("needs_discovery", .num (.fin 3)), ("rapport", .num (.fin 4))]

/-! ## Lemmas on rounding -/

theorem storedScore_range (n : JSNum) : 1 ≤ storedScore n ∧ storedScore n ≤ 5 := by
  cases n with
  | fin x =>
    constructor
    · exact le_min (by norm_num) (le_max_left 1 x)
    · exact min_le_left 5 _
  | nan => constructor <;> norm_num [storedScore]
  | posInf => constructor <;> norm_num [storedScore]
  | negInf => constructor <;> norm_num [storedScore]

theorem mathRound_eq_of_bounds (x : ℚ) (k : ℤ) (hlo : (k : ℚ) ≤ x + 1 / 2)
    (hhi : x + 1 / 2 < k + 1) : mathRound x = k := by
  unfold mathRound
  have : ⌊x + 1 / 2⌋ = k := Int.floor_eq_iff.mpr ⟨hlo, hhi⟩
  rw [this]

theorem roundedTenth_range (m : ℚ) (hlo : 1 ≤ m) (hhi : m ≤ 5) :
    1 ≤ mathRound (m * 10) / 10 ∧ mathRound (m * 10) / 10 ≤ 5 := by
  unfold mathRound
  have h1 : (10 : ℤ) ≤ ⌊m * 10 + 1 / 2⌋ := Int.le_floor.mpr (by push_cast; linarith)
  have h2 : ⌊m * 10 + 1 / 2⌋ < (51 : ℤ) := Int.floor_lt.mpr (by push_cast; linarith)
  have h3 : ((10 : ℤ) : ℚ) ≤ (⌊m * 10 + 1 / 2⌋ : ℤ) := by exact_mod_cast h1
  have h4 : ((⌊m * 10 + 1 / 2⌋ : ℤ) : ℚ) ≤ ((50 : ℤ) : ℚ) := by
    exact_mod_cast Int.lt_add_one_iff.mp h2
  push_cast at h3 h4
  constructor <;> linarith

/-! ## Lemmas on `normalizeScores` -/

theorem mapM_ok_iff {α β : Type} (f : α → Except JSError β) (xs : List α) (ys : List β) :
    xs.mapM f = .ok ys ↔ List.Forall₂ (fun x y => f x = .ok y) xs ys := by
  induction xs generalizing ys with
  | nil =>
    simp only [List.mapM_nil, List.forall₂_nil_left_iff]
    constructor
    · intro h
      cases h
      rfl
    · intro h
      rw [h]
      rfl
  | cons x rest ih =>
    rw [List.mapM_cons, List.forall₂_cons_left_iff]
    constructor
    · intro h
      cases hx : f x with
      | error e => rw [hx] at h; cases h
      | ok y =>
        rw [hx] at h
        cases hr : rest.mapM f with
        | error e => rw [hr] at h; cases h
        | ok zs =>
          rw [hr] at h
          cases h
          exact ⟨y, zs, rfl, (ih zs).mp hr, rfl⟩
    · rintro ⟨y, zs, hx, hr, rfl⟩
      rw [hx, (ih zs).mpr hr]
      rfl

theorem mapM_succeeds_iff {α β : Type} (f : α → Except JSError β) (xs : List α) :
    (∃ ys, xs.mapM f = .ok ys) ↔ ∀ x ∈ xs, ∃ y, f x = .ok y := by
  constructor
  · rintro ⟨ys, h⟩ x hx
    have hall := (mapM_ok_iff f xs ys).mp h
    clear h
    induction hall with
    | nil => cases hx
    | cons hhead _ ih =>
      rcases List.mem_cons.mp hx with rfl | hmem
      · exact ⟨_, hhead⟩
      · exact ih hmem
  · intro h
    induction xs with
    | nil => exact ⟨[], rfl⟩
    | cons x rest ih =>
      obtain ⟨y, hy⟩ := h x (List.mem_cons_self x rest)
      obtain ⟨zs, hzs⟩ := ih fun z hz => h z (List.mem_cons_of_mem x hz)
      exact ⟨y :: zs, (mapM_ok_iff f (x :: rest) (y :: zs)).mpr
        (List.Forall₂.cons hy ((mapM_ok_iff f rest zs).mp hzs))⟩

theorem defaultEntries_eq : defaultEntries = categories.map fun key => (key, .num (.fin 3)) :=
  rfl

theorem normalizeScores_of_not_object (rt : Runtime) (scores : JSVal)
    (h : isObject scores = false) : normalizeScores rt scores = .ok (.obj defaultEntries) := by
  unfold isObject at h
  unfold normalizeScores
  rw [if_pos]
  cases ht : truthy scores
  · simp
  · rw [ht] at h
    simp only [Bool.true_and, beq_eq_false_iff_ne, ne_eq] at h
    simp [h]

theorem normalizeScores_of_object (rt : Runtime) (scores : JSVal)
    (h : isObject scores = true) :
    normalizeScores rt scores =
      match defaultEntries.mapM (normalizeEntry rt scores) with
      | .error e => .error e
      | .ok entries => .ok (.obj entries) := by
  unfold isObject at h
  simp only [Bool.and_eq_true, beq_iff_eq] at h
  unfold normalizeScores
  rw [if_neg]
  simp [h.1, h.2]

theorem normalizeEntry_ok (rt : Runtime) (scores : JSVal) (key : String) (y : String × JSVal)
    (hobj : isObject scores = true)
    (h : normalizeEntry rt scores (key, .num (.fin 3)) = .ok y) :
    ∃ q, y = (key, .num (.fin q)) ∧ NormalizedAs rt scores key q := by
  unfold normalizeEntry at h
  cases hget : getProp scores key with
  | error e => simp [hget] at h
  | ok reported =>
    cases hnum : toNumber rt reported with
    | error e => simp [hget, hnum] at h
    | ok n =>
      simp only [hget, hnum] at h
      refine ⟨storedScore n, ?_, Or.inr ⟨hobj, reported, n, hget, hnum, rfl⟩⟩
      cases n <;> simp only [Except.ok.injEq] at h <;> exact h.symm

theorem normalizeEntry_succeeds_iff (rt : Runtime) (scores : JSVal) (entry : String × JSVal) :
    (∃ y, normalizeEntry rt scores entry = .ok y) ↔
      (match getProp scores entry.1 with
        | .error _ => false
        | .ok reported =>
          match toNumber rt reported with
          | .error _ => false
          | .ok _ => true) = true := by
  unfold normalizeEntry
  cases hget : getProp scores entry.1 with
  | error e => simp
  | ok reported =>
    cases hnum : toNumber rt reported with
    | error e => simp [hnum]
    | ok n => cases n <;> simp [hnum]

/-- The call `normalizeScores(scores)` returns exactly when no conversion of a
category value raises. -/
theorem normalizeScores_succeeds_iff (rt : Runtime) (scores : JSVal) :
    (∃ result, normalizeScores rt scores = .ok result) ↔ converts rt scores = true := by
  cases hobj : isObject scores
  · rw [normalizeScores_of_not_object rt scores hobj]
    simp [converts, hobj]
  · rw [normalizeScores_of_object rt scores hobj]
    have hmap := mapM_succeeds_iff (normalizeEntry rt scores) defaultEntries
    simp only [converts, hobj, Bool.not_true, Bool.false_or, List.all_eq_true]
    constructor
    · rintro ⟨result, h⟩ key hkey
      cases hm : defaultEntries.mapM (normalizeEntry rt scores) with
      | error e => rw [hm] at h; cases h
      | ok entries =>
        have hentry := hmap.mp ⟨entries, hm⟩ (key, .num (.fin 3))
          (by rw [defaultEntries_eq]; exact List.mem_map_of_mem _ hkey)
        exact (normalizeEntry_succeeds_iff rt scores _).mp hentry
    · intro h
      have hall : ∀ x ∈ defaultEntries, ∃ y, normalizeEntry rt scores x = .ok y := by
        intro x hx
        rw [defaultEntries_eq] at hx
        obtain ⟨key, hkey, rfl⟩ := List.mem_map.mp hx
        exact (normalizeEntry_succeeds_iff rt scores _).mpr (h key hkey)
      obtain ⟨entries, hm⟩ := hmap.mpr hall
      exact ⟨.obj entries, by rw [hm]⟩

/-- A result of `normalizeScores` is the object of the seven categories, each with
the score the specification stores for it. -/
theorem normalizeScores_result (rt : Runtime) (scores result : JSVal)
    (h : normalizeScores rt scores = .ok result) :
    ∃ q1 q2 q3 q4 q5 q6 q7 : ℚ, result = scoreObject q1 q2 q3 q4 q5 q6 q7 ∧
      NormalizedAs rt scores "greeting" q1 ∧ NormalizedAs rt scores "needs_discovery" q2 ∧
      NormalizedAs rt scores "product_matching" q3 ∧
      NormalizedAs rt scores "objection_handling" q4 ∧ NormalizedAs rt scores "closing" q5 ∧
      NormalizedAs rt scores "communication_clarity" q6 ∧
      NormalizedAs rt scores "professionalism" q7 := by
  cases hobj : isObject scores
  · rw [normalizeScores_of_not_object rt scores hobj] at h
    cases h
    exact ⟨3, 3, 3, 3, 3, 3, 3, rfl, Or.inl ⟨hobj, rfl⟩, Or.inl ⟨hobj, rfl⟩, Or.inl ⟨hobj, rfl⟩,
      Or.inl ⟨hobj, rfl⟩, Or.inl ⟨hobj, rfl⟩, Or.inl ⟨hobj, rfl⟩, Or.inl ⟨hobj, rfl⟩⟩
  · rw [normalizeScores_of_object rt scores hobj] at h
    cases hm : defaultEntries.mapM (normalizeEntry rt scores) with
    | error e => rw [hm] at h; cases h
    | ok entries =>
      rw [hm] at h
      cases h
      have hall := (mapM_ok_iff _ _ _).mp hm
      simp only [defaultEntries, List.forall₂_cons_left_iff, List.forall₂_nil_left_iff] at hall
      obtain ⟨y1, r1, h1, ⟨y2, r2, h2, ⟨y3, r3, h3, ⟨y4, r4, h4, ⟨y5, r5, h5, ⟨y6, r6, h6,
        ⟨y7, r7, h7, rfl, rfl⟩, rfl⟩, rfl⟩, rfl⟩, rfl⟩, rfl⟩, rfl⟩ := hall
      obtain ⟨q1, rfl, n1⟩ := normalizeEntry_ok rt scores _ y1 hobj h1
      obtain ⟨q2, rfl, n2⟩ := normalizeEntry_ok rt scores _ y2 hobj h2
      obtain ⟨q3, rfl, n3⟩ := normalizeEntry_ok rt scores _ y3 hobj h3
      obtain ⟨q4, rfl, n4⟩ := normalizeEntry_ok rt scores _ y4 hobj h4
      obtain ⟨q5, rfl, n5⟩ := normalizeEntry_ok rt scores _ y5 hobj h5
      obtain ⟨q6, rfl, n6⟩ := normalizeEntry_ok rt scores _ y6 hobj h6
      obtain ⟨q7, rfl, n7⟩ := normalizeEntry_ok rt scores _ y7 hobj h7
      exact ⟨q1, q2, q3, q4, q5, q6, q7, rfl, n1, n2, n3, n4, n5, n6, n7⟩

theorem NormalizedAs_range (rt : Runtime) (scores : JSVal) (key : String) (q : ℚ)
    (h : NormalizedAs rt scores key q) : 1 ≤ q ∧ q ≤ 5 := by
  rcases h with ⟨_, rfl⟩ | ⟨_, _, n, _, _, rfl⟩
  · constructor <;> norm_num
  · exact storedScore_range n

theorem getProp_scoreObject (q1 q2 q3 q4 q5 q6 q7 : ℚ) (key : String) (hkey : key ∈ categories) :
    ∃ q, getProp (scoreObject q1 q2 q3 q4 q5 q6 q7) key = .ok (.num (.fin q)) ∧
      ((key = "greeting" ∧ q = q1) ∨ (key = "needs_discovery" ∧ q = q2) ∨
        (key = "product_matching" ∧ q = q3) ∨ (key = "objection_handling" ∧ q = q4) ∨
        (key = "closing" ∧ q = q5) ∨ (key = "communication_clarity" ∧ q = q6) ∨
        (key = "professionalism" ∧ q = q7)) := by
  simp only [categories, List.mem_cons, List.mem_singleton, List.not_mem_nil, or_false] at hkey
  rcases hkey with rfl | rfl | rfl | rfl | rfl | rfl | rfl
  · exact ⟨q1, rfl, by simp⟩
  · exact ⟨q2, rfl, by simp⟩
  · exact ⟨q3, rfl, by simp⟩
  · exact ⟨q4, rfl, by simp⟩
  · exact ⟨q5, rfl, by simp⟩
  · exact ⟨q6, rfl, by simp⟩
  · exact ⟨q7, rfl, by simp⟩

theorem calculateFinalScore_scoreObject (q1 q2 q3 q4 q5 q6 q7 : ℚ) :
    calculateFinalScore (scoreObject q1 q2 q3 q4 q5 q6 q7) =
      .ok (.num (.fin (mathRound ((q1 + q2 + q3 + q4 + q5 + q6 + q7) / 7 * 10) / 10))) := by
  simp [calculateFinalScore, scoreObject, objectValues, asNumber, JSNum.add, JSNum.divide,
    JSNum.scale, JSNum.round]

theorem NormalizedAs_of_finite (rt : Runtime) (scores : JSVal) (key : String) (q x : ℚ)
    (h : NormalizedAs rt scores key q) (hx : getProp scores key = .ok (.num (.fin x))) :
    q = min 5 (max 1 x) := by
  rcases h with ⟨hobj, _⟩ | ⟨_, reported, n, hget, hnum, rfl⟩
  · cases scores <;> simp [isObject, truthy, typeOf, getProp] at hobj hx
  · rw [hx] at hget
    cases hget
    cases hnum
    rfl

/-! ## The claims on `normalizeScores` -/

/-- C1: for every value passed to `normalizeScores` as the reported scores, each of
the seven category values of the result is a number in the closed range from 1 to
5; the call returns a result exactly when no conversion of a category value
raises; and a reported greeting of 7 is stored as 5, a reported closing of -2 as 1
and a reported needs_discovery of 3 as 3. -/
theorem normalizeScores_values_in_range (rt : Runtime) (scores : JSVal) :
    (∀ result, normalizeScores rt scores = .ok result →
      ∀ key ∈ categories, ∃ q : ℚ, getProp result key = .ok (.num (.fin q)) ∧ 1 ≤ q ∧ q ≤ 5) ∧
    ((∃ result, normalizeScores rt scores = .ok result) ↔ converts rt scores = true) ∧
    (∀ result, normalizeScores rt scores = .ok result →
      (getProp scores "greeting" = .ok (.num (.fin 7)) →
        getProp result "greeting" = .ok (.num (.fin 5))) ∧
      (getProp scores "closing" = .ok (.num (.fin (-2))) →
        getProp result "closing" = .ok (.num (.fin 1))) ∧
      (getProp scores "needs_discovery" = .ok (.num (.fin 3)) →
        getProp result "needs_discovery" = .ok (.num (.fin 3)))) := by
  refine ⟨?_, normalizeScores_succeeds_iff rt scores, ?_⟩
  · intro result h key hkey
    obtain ⟨q1, q2, q3, q4, q5, q6, q7, rfl, n1, n2, n3, n4, n5, n6, n7⟩ :=
      normalizeScores_result rt scores result h
    obtain ⟨q, hq, hcase⟩ := getProp_scoreObject q1 q2 q3 q4 q5 q6 q7 key hkey
    refine ⟨q, hq, ?_⟩
    rcases hcase with ⟨_, rfl⟩ | ⟨_, rfl⟩ | ⟨_, rfl⟩ | ⟨_, rfl⟩ | ⟨_, rfl⟩ | ⟨_, rfl⟩ | ⟨_, rfl⟩
    · exact NormalizedAs_range rt scores _ _ n1
    · exact NormalizedAs_range rt scores _ _ n2
    · exact NormalizedAs_range rt scores _ _ n3
    · exact NormalizedAs_range rt scores _ _ n4
    · exact NormalizedAs_range rt scores _ _ n5
    · exact NormalizedAs_range rt scores _ _ n6
    · exact NormalizedAs_range rt scores _ _ n7
  · intro result h
    obtain ⟨q1, q2, q3, q4, q5, q6, q7, rfl, n1, n2, _, _, n5, _, _⟩ :=
      normalizeScores_result rt scores result h
    refine ⟨fun h7 => ?_, fun h2 => ?_, fun h3 => ?_⟩
    · have hq := NormalizedAs_of_finite rt scores _ q1 7 n1 h7
      have hv : min (5 : ℚ) (max 1 7) = 5 := by norm_num
      rw [hv] at hq
      rw [hq]
      rfl
    · have hq := NormalizedAs_of_finite rt scores _ q5 (-2) n5 h2
      have hv : min (5 : ℚ) (max 1 (-2)) = 1 := by norm_num
      rw [hv] at hq
      rw [hq]
      rfl
    · have hq := NormalizedAs_of_finite rt scores _ q2 3 n2 h3
      have hv : min (5 : ℚ) (max 1 3) = 3 := by norm_num
      rw [hv] at hq
      rw [hq]
      rfl

/-- C1 at the reported scores of scenario E3: the call returns, the seven values
are in range, and greeting, closing and needs_discovery are stored as 5, 1, 3. -/
theorem normalizeScores_values_in_range_witness :
    ∃ result, normalizeScores Runtime.silent reportedE3 = .ok result ∧
      (∀ key ∈ categories, ∃ q : ℚ,
        getProp result key = .ok (.num (.fin q)) ∧ 1 ≤ q ∧ q ≤ 5) ∧
      getProp result "greeting" = .ok (.num (.fin 5)) ∧
      getProp result "closing" = .ok (.num (.fin 1)) ∧
      getProp result "needs_discovery" = .ok (.num (.fin 3)) := by
  obtain ⟨hrange, hsucc, hvalues⟩ := normalizeScores_values_in_range Runtime.silent reportedE3
  obtain ⟨result, h⟩ := hsucc.mpr rfl
  obtain ⟨h7, h2, h3⟩ := hvalues result h
  exact ⟨result, h, hrange result h, h7 rfl, h2 rfl, h3 rfl⟩

/-- C2: for every input to `normalizeScores`, the keys of the result are exactly
the seven fixed categories, in their fixed order: a key of the input outside the
seven never appears, and each of the seven appears even when the input lacks it.
The call returns a result whenever no conversion of a category value raises. -/
theorem normalizeScores_keys (rt : Runtime) (scores : JSVal) :
    (∀ result, normalizeScores rt scores = .ok result →
      ∃ entries, result = .obj entries ∧ entries.map Prod.fst = categories ∧
        (∀ key, key ∉ categories → getProp result key = .ok .undefined) ∧
        (∀ key ∈ categories, getProp result key ≠ .ok .undefined)) ∧
    (converts rt scores = true → ∃ result, normalizeScores rt scores = .ok result) := by
  refine ⟨?_, (normalizeScores_succeeds_iff rt scores).mpr⟩
  intro result h
  obtain ⟨q1, q2, q3, q4, q5, q6, q7, rfl, _⟩ := normalizeScores_result rt scores result h
  refine ⟨_, rfl, rfl, ?_, ?_⟩
  · intro key hkey
    simp only [categories, List.mem_cons, List.mem_singleton, List.not_mem_nil, or_false,
      not_or] at hkey
    obtain ⟨k1, k2, k3, k4, k5, k6, k7⟩ := hkey
    have e1 : ("greeting" == key) = false := beq_eq_false_iff_ne.mpr (Ne.symm k1)
    have e2 : ("needs_discovery" == key) = false := beq_eq_false_iff_ne.mpr (Ne.symm k2)
    have e3 : ("product_matching" == key) = false := beq_eq_false_iff_ne.mpr (Ne.symm k3)
    have e4 : ("objection_handling" == key) = false := beq_eq_false_iff_ne.mpr (Ne.symm k4)
    have e5 : ("closing" == key) = false := beq_eq_false_iff_ne.mpr (Ne.symm k5)
    have e6 : ("communication_clarity" == key) = false := beq_eq_false_iff_ne.mpr (Ne.symm k6)
    have e7 : ("professionalism" == key) = false := beq_eq_false_iff_ne.mpr (Ne.symm k7)
    simp only [getProp, scoreObject, lookupProp, List.find?, e1, e2, e3, e4, e5, e6, e7,
      Option.map_none', Option.getD_none]
  · intro key hkey
    obtain ⟨q, hq, _⟩ := getProp_scoreObject q1 q2 q3 q4 q5 q6 q7 key hkey
    rw [hq]
    simp

/-- C2 at the reported scores of scenario E3, which have the extra key `rapport`
and lack four categories: the result has exactly the seven keys. -/
theorem normalizeScores_keys_witness :
    ∃ entries, normalizeScores Runtime.silent reportedE3 = .ok (.obj entries) ∧
      entries.map Prod.fst = categories ∧
      getProp (.obj entries) "rapport" = .ok .undefined := by
  obtain ⟨hkeys, hsucc⟩ := normalizeScores_keys Runtime.silent reportedE3
  obtain ⟨result, h⟩ := hsucc rfl
  obtain ⟨entries, rfl, hfst, hout, _⟩ := hkeys result h
  exact ⟨entries, h, hfst, hout "rapport" (by decide)⟩

/-- C3, as stated, fails: a reported greeting of `null` and a reported closing of
`true` are not replaced by the default 3. `Number(null)` is 0 and `Number(true)` is
1, both finite, so both are stored as 1. -/
theorem normalizeScores_null_not_default :
    normalizeScores Runtime.silent (.obj [("greeting", .null), ("closing", .bool true)]) =
        .ok (scoreObject 1 3 3 3 1 3 3) ∧
      getProp (scoreObject 1 3 3 3 1 3 3) "greeting" ≠ .ok (.num (.fin 3)) ∧
      getProp (scoreObject 1 3 3 3 1 3 3) "closing" ≠ .ok (.num (.fin 3)) := by
  refine ⟨rfl, ?_, ?_⟩
  · intro h
    have h1 : getProp (scoreObject 1 3 3 3 1 3 3) "greeting" = .ok (.num (.fin 1)) := rfl
    rw [h1] at h
    simp only [Except.ok.injEq, JSVal.num.injEq, JSNum.fin.injEq] at h
    norm_num at h
  · intro h
    have h1 : getProp (scoreObject 1 3 3 3 1 3 3) "closing" = .ok (.num (.fin 1)) := rfl
    rw [h1] at h
    simp only [Except.ok.injEq, JSVal.num.injEq, JSNum.fin.injEq] at h
    norm_num at h

/-- C3, amended: for reported scores that are an object (or an array), a category
of the seven and a returned result, the stored value is decided by
`Number(scores[key])`, an absent category reading `undefined`: a finite conversion
`x` is stored as `min(5, max(1, x))`, and `NaN` and the infinities as the default 3.
So a finite number is clamped; an absent category, `NaN`, an infinity and an object
give 3; `null` and the booleans convert to 0 or 1 and are stored as 1. -/
theorem normalizeScores_category_value (rt : Runtime) (scores result : JSVal) (key : String)
    (hkey : key ∈ categories) (hobj : isObject scores = true)
    (h : normalizeScores rt scores = .ok result) :
    ∃ reported n q, getProp scores key = .ok reported ∧ toNumber rt reported = .ok n ∧
      getProp result key = .ok (.num (.fin q)) ∧ q = storedScore n ∧
      (∀ x, reported = .num (.fin x) → q = min 5 (max 1 x)) ∧
      (reported = .undefined ∨ reported = .num .nan ∨ reported = .num .posInf ∨
        reported = .num .negInf ∨ (∃ props, reported = .obj props) → q = 3) ∧
      (reported = .null ∨ (∃ b, reported = .bool b) → q = 1) := by
  obtain ⟨q1, q2, q3, q4, q5, q6, q7, rfl, n1, n2, n3, n4, n5, n6, n7⟩ :=
    normalizeScores_result rt scores result h
  obtain ⟨q, hq, hcase⟩ := getProp_scoreObject q1 q2 q3 q4 q5 q6 q7 key hkey
  have hnorm : NormalizedAs rt scores key q := by
    rcases hcase with ⟨rfl, rfl⟩ | ⟨rfl, rfl⟩ | ⟨rfl, rfl⟩ | ⟨rfl, rfl⟩ | ⟨rfl, rfl⟩ |
      ⟨rfl, rfl⟩ | ⟨rfl, rfl⟩
    · exact n1
    · exact n2
    · exact n3
    · exact n4
    · exact n5
    · exact n6
    · exact n7
  rcases hnorm with ⟨hno, _⟩ | ⟨_, reported, n, hget, hnum, hstored⟩
  · rw [hobj] at hno
    cases hno
  · refine ⟨reported, n, q, hget, hnum, hq, hstored, ?_, ?_, ?_⟩
    · rintro x rfl
      cases hnum
      exact hstored
    · rintro (rfl | rfl | rfl | rfl | ⟨props, rfl⟩)
      · cases hnum
        exact hstored
      · cases hnum
        exact hstored
      · cases hnum
        exact hstored
      · cases hnum
        exact hstored
      · simp only [toNumber] at hnum
        split at hnum
        · cases hnum
        · cases hnum
          exact hstored
    · rintro (rfl | ⟨b, rfl⟩)
      · cases hnum
        rw [hstored]
        norm_num [storedScore]
      · cases b <;> cases hnum <;> rw [hstored] <;> norm_num [storedScore]

/-- C3, amended, at the reported scores of scenario E3 and the category closing:
the reported -2 is stored as 1. -/
theorem normalizeScores_category_value_witness :
    ∃ q : ℚ, getProp (scoreObject 5 3 3 3 1 3 3) "closing" = .ok (.num (.fin q)) ∧
      q = min 5 (max 1 (-2)) := by
  obtain ⟨reported, n, q, hget, _, hq, _, hfin, _⟩ :=
    normalizeScores_category_value Runtime.silent reportedE3 (scoreObject 5 3 3 3 1 3 3)
      "closing" (by decide) rfl rfl
  cases hget
  exact ⟨q, hq, hfin (-2) rfl⟩

/-! ## The claims on the final score -/

/-- C5: for every reported scores input, the final score computed from a result of
`normalizeScores` is not `null`: it is a number in the closed range from 1 to 5.
The result exists whenever no conversion of a category value raises. -/
theorem finalScore_in_range (rt : Runtime) (scores : JSVal) :
    (∀ result, normalizeScores rt scores = .ok result →
      ∃ q : ℚ, calculateFinalScore result = .ok (.num (.fin q)) ∧ 1 ≤ q ∧ q ≤ 5) ∧
    (converts rt scores = true → ∃ result, normalizeScores rt scores = .ok result) := by
  refine ⟨?_, (normalizeScores_succeeds_iff rt scores).mpr⟩
  intro result h
  obtain ⟨q1, q2, q3, q4, q5, q6, q7, rfl, n1, n2, n3, n4, n5, n6, n7⟩ :=
    normalizeScores_result rt scores result h
  have r1 := NormalizedAs_range rt scores _ _ n1
  have r2 := NormalizedAs_range rt scores _ _ n2
  have r3 := NormalizedAs_range rt scores _ _ n3
  have r4 := NormalizedAs_range rt scores _ _ n4
  have r5 := NormalizedAs_range rt scores _ _ n5
  have r6 := NormalizedAs_range rt scores _ _ n6
  have r7 := NormalizedAs_range rt scores _ _ n7
  refine ⟨_, calculateFinalScore_scoreObject q1 q2 q3 q4 q5 q6 q7, ?_⟩
  apply roundedTenth_range
  · rw [le_div_iff₀ (by norm_num)]
    linarith [r1.1, r2.1, r3.1, r4.1, r5.1, r6.1, r7.1]
  · rw [div_le_iff₀ (by norm_num)]
    linarith [r1.2, r2.2, r3.2, r4.2, r5.2, r6.2, r7.2]

/-- C5 at reported scores far outside the range: every category is reported as
100, each is stored as 5, and the final score is a number between 1 and 5. -/
theorem finalScore_in_range_witness :
    ∃ result q, normalizeScores Runtime.silent (scoreObject 100 100 100 100 100 100 100) =
        .ok result ∧
      calculateFinalScore result = .ok (.num (.fin q)) ∧ 1 ≤ q ∧ q ≤ 5 := by
  obtain ⟨hrange, hsucc⟩ :=
    finalScore_in_range Runtime.silent (scoreObject 100 100 100 100 100 100 100)
  obtain ⟨result, h⟩ := hsucc rfl
  obtain ⟨q, hq, hlo, hhi⟩ := hrange result h
  exact ⟨result, q, h, hq, hlo, hhi⟩

theorem calculateFinalScore_defaults :
    calculateFinalScore (scoreObject 3 3 3 3 3 3 3) = .ok (.num (.fin 3)) := by
  rw [calculateFinalScore_scoreObject]
  have h : mathRound ((3 + 3 + 3 + 3 + 3 + 3 + 3 : ℚ) / 7 * 10) = (30 : ℤ) :=
    mathRound_eq_of_bounds _ 30 (by norm_num) (by norm_num)
  rw [h]
  norm_num

/-- The evaluation step on a parse result that is falsy (`null`, `false`, 0, the
empty text): the fallback evaluation with default scores and final score 3. -/
theorem evaluateResponse_of_unparsed (rt : Runtime) (content : Option String)
    (h : safeParseJson rt content = .null) :
    evaluateResponse rt content =
      .ok ⟨.num (.fin 3), .obj (("scores", scoreObject 3 3 3 3 3 3 3) :: fallbackTexts)⟩ := by
  unfold evaluateResponse
  simp only [h, truthy, Bool.false_eq_true, if_false]
  have hnorm : normalizeScores rt (.obj []) = .ok (scoreObject 3 3 3 3 3 3 3) := rfl
  have hget : getProp fallbackEvaluation "scores" = .ok (.obj []) := rfl
  have hset : setProp fallbackEvaluation "scores" (scoreObject 3 3 3 3 3 3 3) =
      .ok (.obj (("scores", scoreObject 3 3 3 3 3 3 3) :: fallbackTexts)) := rfl
  have hstored : getProp (.obj (("scores", scoreObject 3 3 3 3 3 3 3) :: fallbackTexts))
      "scores" = .ok (scoreObject 3 3 3 3 3 3 3) := rfl
  simp only [hget, hnorm, hset, hstored, calculateFinalScore_defaults]

/-- The evaluation step raises on every response body that parses to a truthy
primitive: a non-empty string, a number other than 0 and `NaN`, or `true`. -/
theorem evaluateResponse_raises_on_primitive (rt : Runtime) (text : String) (v : JSVal)
    (htext : text ≠ "") (hparse : rt.jsonParse text = some v) (htruthy : truthy v = true)
    (hprim : typeOf v ≠ JSType.object) :
    evaluateResponse rt (some text) = .error .typeError := by
  have hsafe : safeParseJson rt (some text) = v := by
    simp [safeParseJson, htext, hparse]
  unfold evaluateResponse
  simp only [hsafe, htruthy, if_true]
  cases v with
  | undefined => simp [truthy] at htruthy
  | null => simp [truthy] at htruthy
  | bool b => rfl
  | num n => rfl
  | str s => rfl
  | arr items props => simp [typeOf] at hprim
  | obj props => simp [typeOf] at hprim

/-! ## The claims on the evaluation step -/

/-- C6: for every evaluation response whose content is empty (or `null`) or fails to
parse as JSON, the evaluation step succeeds and gives the fixed fallback
evaluation, with its four fixed texts, all seven category scores equal to 3 and
the final score 3. -/
theorem evaluateResponse_fallback (rt : Runtime) (content : Option String)
    (h : content = none ∨ content = some "" ∨
      ∃ text, content = some text ∧ rt.jsonParse text = none) :
    evaluateResponse rt content =
        .ok ⟨.num (.fin 3), .obj (("scores", scoreObject 3 3 3 3 3 3 3) :: fallbackTexts)⟩ ∧
      ∀ key ∈ categories,
        getProp (scoreObject 3 3 3 3 3 3 3) key = .ok (.num (.fin 3)) := by
  constructor
  · apply evaluateResponse_of_unparsed
    rcases h with rfl | rfl | ⟨text, rfl, hparse⟩
    · rfl
    · rfl
    · unfold safeParseJson
      by_cases hempty : text = ""
      · simp [hempty]
      · simp [hempty, hparse]
  · intro key hkey
    obtain ⟨q, hq, hcase⟩ := getProp_scoreObject 3 3 3 3 3 3 3 key hkey
    rcases hcase with ⟨_, rfl⟩ | ⟨_, rfl⟩ | ⟨_, rfl⟩ | ⟨_, rfl⟩ | ⟨_, rfl⟩ | ⟨_, rfl⟩ | ⟨_, rfl⟩ <;>
      exact hq

/-- C6 at the response body `not json`, which is not JSON: the evaluation step gives
the fallback evaluation with final score 3. -/
theorem evaluateResponse_fallback_witness :
    evaluateResponse Runtime.silent (some "not json") =
      .ok ⟨.num (.fin 3), .obj (("scores", scoreObject 3 3 3 3 3 3 3) :: fallbackTexts)⟩ :=
  (evaluateResponse_fallback Runtime.silent (some "not json")
    (Or.inr (Or.inr ⟨"not json", rfl, rfl⟩))).1

/-- C7 fails on the code: when the response body is the JSON text `"ok"`, which
parses to a string, the evaluation step raises a `TypeError`; the assignment of the
normalized scores to the string is dropped and `calculateFinalScore` is called on
`undefined`. It also raises when the body parses to an object whose reported
greeting is an object with an own `toString` property, inside `normalizeScores`. -/
theorem evaluateResponse_raises :
    evaluateResponse (Runtime.reading "\"ok\"" (.str "ok")) (some "\"ok\"") =
        .error .typeError ∧
      evaluateResponse
        (Runtime.reading "\x7b\"scores\":\x7b\"greeting\":\x7b\"toString\":1\x7d\x7d\x7d"
          (.obj [("scores", .obj [("greeting", .obj [("toString", .num (.fin 1))])])]))
        (some "\x7b\"scores\":\x7b\"greeting\":\x7b\"toString\":1\x7d\x7d\x7d") =
        .error .typeError :=
  ⟨rfl, rfl⟩

/-! ## The claims on the metrics -/

/-- C10, as stated, fails: for the six scores 5, 5, 5, 5, 5, 1, latest first, the
average of the first five is not 4.2 and the improvement is not 3.2. -/
theorem metrics_scenarioE4_not_as_stated :
    ¬(avgRecent [5, 5, 5, 5, 5, 1] = some (42 / 10) ∧ avgPrevious [5, 5, 5, 5, 5, 1] = some 1 ∧
      (metrics [5, 5, 5, 5, 5, 1]).recentImprovement = some (32 / 10)) := by
  have hr : avgRecent [5, 5, 5, 5, 5, 1] = some 5 := by
    norm_num [avgRecent, recentRows, groupAverage, sumScores]
  rintro ⟨h, _, _⟩
  rw [hr] at h
  simp only [Option.some.injEq] at h
  norm_num at h

/-- C10, amended: for the six scores 5, 5, 5, 5, 5, 1, latest first, `avgRecent` over
the first five is 5, `avgPrevious` over the last one is 1, and `recentImprovement`
is 4. -/
theorem metrics_scenarioE4 :
    recentRows [5, 5, 5, 5, 5, 1] = [5, 5, 5, 5, 5] ∧ previousRows [5, 5, 5, 5, 5, 1] = [1] ∧
      avgRecent [5, 5, 5, 5, 5, 1] = some 5 ∧ avgPrevious [5, 5, 5, 5, 5, 1] = some 1 ∧
      (metrics [5, 5, 5, 5, 5, 1]).recentImprovement = some 4 := by
  have hr : avgRecent [5, 5, 5, 5, 5, 1] = some 5 := by
    norm_num [avgRecent, recentRows, groupAverage, sumScores]
  have hp : avgPrevious [5, 5, 5, 5, 5, 1] = some 1 := by
    norm_num [avgPrevious, previousRows, groupAverage, sumScores]
  refine ⟨rfl, rfl, hr, hp, ?_⟩
  unfold metrics
  rw [if_neg (by simp)]
  simp only [hr, hp, improvementOf, truthyAverage, Option.getD_some]
  have hround : mathRound (((5 : ℚ) - 1) * 10) = (40 : ℤ) :=
    mathRound_eq_of_bounds _ 40 (by norm_num) (by norm_num)
  rw [hround]
  norm_num


/-! ## Lemmas on the two groups of the metrics -/

/-- C11, as stated, fails: a user turn submitted to a session whose status is
`completed` is not rejected. The user message is appended to the log, the reply of
the dialogue service is appended after it, and the answer is the reply. -/
theorem postMessage_accepts_completed :
    (getSession completedStore "s1").map (fun session => session.status) = some "completed" ∧
      postMessage Services.sample completedStore "s1" "hello" "t2" "t3" "99" =
        (⟨[completedSession],
            [⟨"s1", "user", "Hi", "t0"⟩, ⟨"s1", "user", "hello", "t2"⟩,
              ⟨"s1", "assistant", "Sure.", "t3"⟩]⟩,
          .reply "Sure." "/audio/s1-99.mp3") ∧
      (postMessage Services.sample completedStore "s1" "hello" "t2" "t3" "99").1.messages ≠
        completedStore.messages :=
  ⟨rfl, rfl, by decide⟩

/-- C11, amended: for every store, session id and non-empty text, with the API key
configured, a user turn submitted to a session that does not exist is rejected
with status 404 and leaves the store unchanged; a user turn submitted to a session
that exists, whatever its status, leaves the sessions unchanged and appends the
user message to the log, before anything the rest of the handler appends. -/
theorem postMessage_log (sv : Services) (store : Store)
    (sessionId text now replyAt stamp : String) (hconf : sv.configured = true)
    (htext : text ≠ "") :
    (getSession store sessionId = none →
      postMessage sv store sessionId text now replyAt stamp =
        (store, .failure 404 "Session not found")) ∧
    (∀ session, getSession store sessionId = some session →
      (postMessage sv store sessionId text now replyAt stamp).1.sessions = store.sessions ∧
      ∃ rest, (postMessage sv store sessionId text now replyAt stamp).1.messages =
        store.messages ++ ⟨sessionId, "user", text, now⟩ :: rest) := by
  constructor
  · intro hnone
    unfold postMessage
    simp only [hconf, Bool.not_true, Bool.false_eq_true, if_false, htext, hnone]
  · intro session hsome
    unfold postMessage
    simp only [hconf, Bool.not_true, Bool.false_eq_true, if_false, htext, hsome]
    cases sv.dialogue session
        (getMessages (insertMessage store ⟨sessionId, "user", text, now⟩) sessionId) with
    | none => exact ⟨rfl, [], rfl⟩
    | some reply =>
      simp only
      split
      · exact ⟨rfl, [⟨sessionId, "assistant", reply, replyAt⟩], by
          simp [insertMessage]⟩
      · exact ⟨rfl, [⟨sessionId, "assistant", reply, replyAt⟩], by
          simp [insertMessage]⟩

/-- C11, amended, at the store with the one completed session: a turn for the
unknown session `s2` is rejected with 404 and changes nothing, and a turn for the
completed session `s1` appends the user message. -/
theorem postMessage_log_witness :
    postMessage Services.sample completedStore "s2" "hello" "t2" "t3" "99" =
        (completedStore, .failure 404 "Session not found") ∧
      ∃ rest, (postMessage Services.sample completedStore "s1" "hello" "t2" "t3" "99").1.messages =
        completedStore.messages ++ ⟨"s1", "user", "hello", "t2"⟩ :: rest :=
  ⟨(postMessage_log Services.sample completedStore "s2" "hello" "t2" "t3" "99" rfl
      (by decide)).1 rfl,
    ((postMessage_log Services.sample completedStore "s1" "hello" "t2" "t3" "99" rfl
      (by decide)).2 completedSession rfl).2⟩

end SalesTrainer
